import Mathlib

/-!
Verification of the resilient authenticated HTTP client of the Pharma_v2
repository: the error-classification engine and custom error hierarchy
(lib/utils/error-handler.ts), the token-lifecycle utilities
(lib/utils/auth.ts), and the single-flight refresh pipeline built from the
axios request/response interceptors (lib/http.ts).

Conventions of the shallow embedding:
- JavaScript nullable values become Option; JavaScript truthiness of a
  string (null and the empty string are falsy) is the predicate truthyStr,
  and truthiness of a nullable number (null and 0 are falsy) is matched
  explicitly where the source tests it.
- localStorage is the Storage record; Date.now() is an explicit now
  parameter; the JWT-expiry decoder (getTokenExpiryFromJwt) is passed as an
  explicit function parameter where storeAuthData consumes it.
- The cooperative event loop of the browser is modelled by an explicit
  step function over scheduler actions: code between two await points runs
  atomically, and a scheduler (a list of actions) interleaves tasks.
-/

namespace Pharma

/-! ## JavaScript value helpers -/

/-- Truthiness of a nullable string: null and the empty string are falsy. -/
def truthyStr : Option String → Bool
  | none => false
  | some s => !(s == "")

/-- Containment of one character list in another, by scanning suffixes. -/
def charsInclude (needle : List Char) : List Char → Bool
  | [] => needle.isEmpty
  | c :: rest => needle.isPrefixOf (c :: rest) || charsInclude needle rest

/-- Substring containment, modelling String.prototype.includes for the
non-empty needles used in the source. -/
def strIncludes (hay needle : String) : Bool :=
  charsInclude needle.toList hay.toList

/-- JavaScript or-chaining on nullable strings: a || b falls through when a
is null or the empty string. -/
def jsOrStr (a : Option String) (b : String) : String :=
  match a with
  | some s => if s == "" then b else s
  | none => b

/-! ## Raw transport errors (the axios error shape consumed by
error-handler.ts) -/

/-- Body of an error response: data.message, data.error, and whether
data.errors holds a truthy field-level validation map. -/
structure RespData where
  message : Option String
  errorMsg : Option String
  errors : Bool
deriving DecidableEq

/-- The response member of an axios error: a status plus an optional body. -/
structure Resp where
  status : Nat
  data : Option RespData
deriving DecidableEq

/-- A raw transport/protocol failure as the classification engine sees it:
optional response, optional error code, optional message, and whether a
request object exists (a request was actually dispatched). -/
structure RawError where
  response : Option Resp
  code : Option String
  message : Option String
  request : Bool
deriving DecidableEq

/-- The optional-chained status read error?.response?.status. -/
def respStatus (e : RawError) : Option Nat :=
  e.response.map (·.status)

/-- The optional-chained read error?.response?.data. -/
def respData (e : RawError) : Option RespData :=
  e.response.bind (·.data)

/-- Truthiness of error?.response?.data?.errors. -/
def respHasErrorsMap (e : RawError) : Bool :=
  ((respData e).map (·.errors)).getD false

/-- Truthiness of error?.response?.data?.message. -/
def backendMessage (e : RawError) : Bool :=
  truthyStr ((respData e).bind (·.message))

/-- Truthiness of error?.message?.includes(needle). -/
def msgIncludes (e : RawError) (needle : String) : Bool :=
  match e.message with
  | some m => strIncludes m needle
  | none => false

/-- The guarded comparison status && status >= 500. -/
def statusGe500 : Option Nat → Bool
  | some s => 500 ≤ s
  | none => false

/-! ## Error classification engine (getErrorCategory / getErrorType) -/

inductive ErrorCategory where
  | auth | permission | validation | notfound | conflict
  | network | timeout | server | business | unknown
deriving DecidableEq

inductive ErrorType where
  | retryable | nonRetryable | business | system
deriving DecidableEq

/-- Embedding of getErrorCategory: the if-chain of error-handler.ts,
condition for condition in source order. -/
def getErrorCategory (e : RawError) : ErrorCategory :=
  let status := respStatus e
  if status == some 401 then .auth
  else if status == some 403 then .permission
  else if status == some 422 || respHasErrorsMap e then .validation
  else if status == some 404 then .notfound
  else if status == some 409 then .conflict
  else if statusGe500 status then .server
  else if e.code == some "ERR_NETWORK" || msgIncludes e "Network Error"
       || e.response == none then .network
  else if e.code == some "ECONNABORTED" || msgIncludes e "timeout" then .timeout
  else if backendMessage e then .business
  else .unknown

/-- Embedding of getErrorType: category plus presence of a backend message
decide the retry class, following the source line by line. -/
def getErrorType (e : RawError) : ErrorType :=
  let category := getErrorCategory e
  let hasBackendMessage := backendMessage e
  if category == .network || category == .timeout || category == .server then
    .retryable
  else if [ErrorCategory.auth, .permission, .validation, .notfound,
           .conflict].contains category then
    .nonRetryable
  else if hasBackendMessage then .business
  else .system

/-- The per-category predicate of the ordered classification table. Each
predicate is the corresponding condition of the source if-chain. -/
def catPred (c : ErrorCategory) (e : RawError) : Bool :=
  match c with
  | .auth => respStatus e == some 401
  | .permission => respStatus e == some 403
  | .validation => respStatus e == some 422 || respHasErrorsMap e
  | .notfound => respStatus e == some 404
  | .conflict => respStatus e == some 409
  | .server => statusGe500 (respStatus e)
  | .network => e.code == some "ERR_NETWORK" || msgIncludes e "Network Error"
                || e.response == none
  | .timeout => e.code == some "ECONNABORTED" || msgIncludes e "timeout"
  | .business => backendMessage e
  | .unknown => true

/-- The claimed priority order of the categories. -/
def categoryOrder : List ErrorCategory :=
  [.auth, .permission, .validation, .notfound, .conflict,
   .server, .network, .timeout, .business]

/-- First-match semantics over the ordered predicate table, with unknown as
the fallback. -/
def firstMatch (e : RawError) : ErrorCategory :=
  (categoryOrder.find? (fun c => catPred c e)).getD .unknown

/-! ## Custom error classes and parseApiError (error-handler.ts) -/

/-- Which AppError subclass an error object belongs to (instanceof tag). -/
inductive AppErrorKind where
  | base | badRequest | unauthorized | forbidden | notFound
  | conflict | validation | internalServer
deriving DecidableEq

/-- The AppError class: message, statusCode, isOperational, tagged with the
concrete subclass. -/
structure AppError where
  kind : AppErrorKind
  message : String
  statusCode : Nat
  isOperational : Bool
deriving DecidableEq

/-- Input of parseApiError: either an object that already is an AppError
instance, or a raw error. -/
inductive ParseInput where
  | app (a : AppError)
  | raw (e : RawError)
deriving DecidableEq

/-- Embedding of parseApiError: return AppError instances unchanged, map
response statuses through the subclass switch, and fall back to the
network / client branches. -/
def parseApiError : ParseInput → AppError
  | .app a => a
  | .raw e =>
    match e.response with
    | some resp =>
      let message := jsOrStr ((resp.data).bind (·.message))
        (jsOrStr ((resp.data).bind (·.errorMsg)) "An error occurred")
      match resp.status with
      | 400 => ⟨.badRequest, message, 400, true⟩
      | 401 => ⟨.unauthorized, message, 401, true⟩
      | 403 => ⟨.forbidden, message, 403, true⟩
      | 404 => ⟨.notFound, message, 404, true⟩
      | 409 => ⟨.conflict, message, 409, true⟩
      | 422 => ⟨.validation, message, 422, true⟩
      | _ => ⟨.internalServer, message, 500, true⟩
    | none =>
      if e.request then
        ⟨.base, "Network Error - No response from server", 0, false⟩
      else
        ⟨.base, jsOrStr e.message "An unexpected error occurred", 500, false⟩

/-! ## Token lifecycle utilities (lib/utils/auth.ts) -/

/-- Token refresh threshold: 5 minutes before expiry, in milliseconds. -/
def REFRESH_THRESHOLD : Int := 5 * 60 * 1000

/-- The localStorage slice owned by the auth utilities: the four keys
auth_token, refresh_token, token_expiry, user_data. The expiry is stored as
a decimal string in the source; we model the parsed value, with none for an
absent key. -/
structure Storage where
  auth_token : Option String
  refresh_token : Option String
  token_expiry : Option Int
  user_data : Option String
deriving DecidableEq

/-- Embedding of isTokenExpiringSoon. The source guard if (!expiry) treats
both a missing expiry and a stored 0 as falsy. -/
def isTokenExpiringSoon (expiry : Option Int) (now : Int) : Bool :=
  match expiry with
  | none => false
  | some v => if v == 0 then false else decide (now ≥ v - REFRESH_THRESHOLD)

/-- Embedding of isTokenExpired, with the same falsy guard on the expiry. -/
def isTokenExpired (expiry : Option Int) (now : Int) : Bool :=
  match expiry with
  | none => false
  | some v => if v == 0 then false else decide (now ≥ v)

/-- Embedding of isAuthenticated: a truthy access token that is not
expired. -/
def isAuthenticated (token : Option String) (expiry : Option Int)
    (now : Int) : Bool :=
  match token with
  | none => false
  | some t =>
    if t == "" then false
    else if isTokenExpired expiry now then false
    else true

/-- The refresh endpoint response shape { accessToken, refreshToken?,
user? }; the user record is kept opaque as its serialized form. -/
structure AuthResponseDto where
  accessToken : String
  refreshToken : Option String
  user : Option String
deriving DecidableEq

/-- Embedding of storeAuthData. The decode parameter stands for
getTokenExpiryFromJwt: it derives the expiry claim of the access token, and
the source guards each conditional write with JavaScript truthiness. -/
def storeAuthData (decode : String → Option Int) (data : AuthResponseDto)
    (s : Storage) : Storage :=
  let s1 := { s with auth_token := some data.accessToken }
  let s2 := if truthyStr data.refreshToken then
      { s1 with refresh_token := data.refreshToken }
    else s1
  let s3 := match decode data.accessToken with
    | some e => if e == 0 then s2 else { s2 with token_expiry := some e }
    | none => s2
  if truthyStr data.user then { s3 with user_data := data.user } else s3

/-- Embedding of clearAuthData: every key removed. -/
def clearAuthData : Storage :=
  { auth_token := none, refresh_token := none, token_expiry := none,
    user_data := none }

/-! ## Response-interceptor retry discipline (lib/http.ts, response
interceptor error handler) -/

/-- Outcome of one issued attempt of a request: a successful response, or
an error carrying the optional response status (none when no response
arrived). -/
inductive AttemptOutcome where
  | success
  | failure (status : Option Nat)
deriving DecidableEq

/-- The retry guard of the response interceptor: the branch is entered only
when the status is 401 (HTTP_STATUS.UNAUTHORIZED) and the _retry flag of
the original request config is unset. -/
def shouldRetry401 (retried : Bool) (status : Option Nat) : Bool :=
  status == some 401 && !retried

/-- One pass through the response-interceptor error handler for a request
whose _retry flag is the first argument: returns the updated flag and
whether the request is re-issued. Inside the guarded branch the flag is set
and the request is re-issued exactly when the governing refresh delivers a
token (owning the refresh or joining the in-flight one via
subscribeTokenRefresh); outside it, the error is rejected through
parseApiError with the flag untouched. -/
def onResponseError (retried : Bool) (status : Option Nat)
    (refreshOk : Bool) : Bool × Bool :=
  if shouldRetry401 retried status then (true, refreshOk)
  else (retried, false)

/-- Number of times a logical request is issued, given the outcome of each
successive attempt and whether refreshes succeed; consuming an outcome is
one issue of the request. -/
def issuesFrom (outcomes : List AttemptOutcome) (retried : Bool)
    (refreshOk : Bool) : Nat :=
  match outcomes with
  | [] => 0
  | o :: rest =>
    match o with
    | .success => 1
    | .failure st =>
      let r := onResponseError retried st refreshOk
      1 + (if r.2 then issuesFrom rest r.1 refreshOk else 0)

/-- Total issues of a logical request, whose _retry flag starts false. -/
def totalIssues (outcomes : List AttemptOutcome) (refreshOk : Bool) : Nat :=
  issuesFrom outcomes false refreshOk

/-! ## The single-flight refresh pipeline (lib/http.ts, request
interceptor)

Cooperative event-loop model. Each outbound request is a task; the code of
the request interceptor between two suspension points runs atomically. The
suspension points of the source are (a) the await on refreshToken() held by
the task that started the refresh and (b) the promise a subscribed task
waits on. A scheduler action either runs the synchronous prefix of a ready
task or resumes the refreshing task when its exchange settles. -/

/-- Where a task stands in the request interceptor. leading is the task
suspended on its own await of refreshToken(); sent carries the
Authorization header value the returned config ended up with. -/
inductive TaskPhase where
  | ready
  | leading
  | waiting
  | sent (auth : Option String)
deriving DecidableEq

/-- Global state of the module: the localStorage slice, the in-flight
refresh (the source keeps the boolean isRefreshing in a module variable,
and which task awaits the refreshToken() promise — together with whether an
exchange was actually dispatched, which depends on a refresh token being
stored — in that task's suspended continuation), the refreshSubscribers
array (as the ids of the tasks whose callbacks it holds, in arrival order),
the tasks, the number of exchanges dispatched against the refresh endpoint,
and the returnUrl of each redirectToLogin call. -/
structure SysState where
  storage : Storage
  refreshing : Option (Nat × Bool)
  refreshSubscribers : List Nat
  tasks : List TaskPhase
  exchanges : Nat
  redirects : List String
deriving DecidableEq

/-- The isRefreshing module flag as the interceptor reads it. -/
def isRefreshingFlag (s : SysState) : Bool :=
  s.refreshing.isSome

/-- Fixed environment of a run: the clock, the JWT expiry decoder, the
outcome the refresh endpoint gives to an exchange (none when the call
throws or returns an error status), and window.location.pathname. -/
structure Env where
  now : Int
  decode : String → Option Int
  resp : Option AuthResponseDto
  path : String

/-- A scheduler action: start the synchronous prefix of task i, or settle
the in-flight refresh exchange and resume the task that awaits it. -/
inductive Action where
  | start (i : Nat)
  | complete
deriving DecidableEq

/-- The bearer header value attached by the interceptor. -/
def bearer (t : String) : String :=
  "Bearer " ++ t

/-- The synchronous prefix of the request interceptor for task i, faithful
to the source branch by branch: read the token; when it is truthy, either
begin a refresh (token expiring soon and no refresh in flight), or
subscribe and suspend (refresh in flight), or attach the current token;
when the token is not truthy, return the config untouched. -/
def startTask (env : Env) (s : SysState) (i : Nat) : SysState :=
  match s.tasks[i]? with
  | some TaskPhase.ready =>
    match s.storage.auth_token with
    | some t =>
      if t == "" then
        { s with tasks := s.tasks.set i (.sent none) }
      else if isTokenExpiringSoon s.storage.token_expiry env.now
              && !(isRefreshingFlag s) then
        let hasRefresh := truthyStr s.storage.refresh_token
        { s with refreshing := some (i, hasRefresh),
                 tasks := s.tasks.set i .leading,
                 exchanges := s.exchanges + (if hasRefresh then 1 else 0) }
      else if isRefreshingFlag s then
        { s with refreshSubscribers := s.refreshSubscribers ++ [i],
                 tasks := s.tasks.set i .waiting }
      else
        { s with tasks := s.tasks.set i (.sent (some (bearer t))) }
    | none => { s with tasks := s.tasks.set i (.sent none) }
  | _ => s

/-- The onTokenRefreshed broadcast: every subscriber callback sets the
Authorization header of its config to the new bearer value and resolves. -/
def notifyAll (ts : List TaskPhase) (subs : List Nat) (auth : String) :
    List TaskPhase :=
  subs.foldl
    (fun acc j =>
      if acc[j]? == some TaskPhase.waiting then
        acc.set j (.sent (some auth))
      else acc)
    ts

/-- Failure tail of the interceptor refresh branch: redirectToLogin clears
the credentials and navigates with the current pathname; the interceptor
then falls through and returns the config with no Authorization header set,
and the finally block drops isRefreshing. The subscriber queue is left as
it is: onTokenRefreshed runs only on the success path. -/
def failPath (env : Env) (s : SysState) (i : Nat) : SysState :=
  { s with storage := clearAuthData,
           redirects := s.redirects ++ [env.path],
           refreshing := none,
           tasks := s.tasks.set i (.sent none) }

/-- Resumption of the task that awaits refreshToken(). When an exchange was
dispatched and the endpoint answered with a truthy accessToken, the
response is stored, the awaiting task attaches the new bearer token, every
subscriber is notified and the queue emptied, and isRefreshing drops;
otherwise refreshToken() yields null and the failure tail runs. -/
def completeRefresh (env : Env) (s : SysState) : SysState :=
  match s.refreshing with
  | none => s
  | some (i, exchanged) =>
    match (if exchanged then env.resp else none) with
    | some r =>
      if truthyStr (some r.accessToken) then
        { storage := storeAuthData env.decode r s.storage,
          refreshing := none,
          refreshSubscribers := [],
          tasks := notifyAll (s.tasks.set i (.sent (some (bearer r.accessToken))))
                     s.refreshSubscribers (bearer r.accessToken),
          exchanges := s.exchanges,
          redirects := s.redirects }
      else failPath env s i
    | none => failPath env s i

/-- One scheduler step. -/
def step (env : Env) (s : SysState) : Action → SysState
  | .start i => startTask env s i
  | .complete => completeRefresh env s

/-- A whole run under a scheduler. -/
def run (env : Env) (s : SysState) (acts : List Action) : SysState :=
  acts.foldl (step env) s

/-- Module state at load time with n outstanding requests: isRefreshing is
false and the subscriber array empty. -/
def initState (st : Storage) (n : Nat) : SysState :=
  { storage := st, refreshing := none, refreshSubscribers := [],
    tasks := List.replicate n .ready, exchanges := 0, redirects := [] }

/-- Every task has completed the request interceptor. -/
def allSentB (s : SysState) : Bool :=
  s.tasks.all (fun p => match p with
    | TaskPhase.sent _ => true
    | _ => false)

/-- Every completed task carries the given Authorization header value. -/
def allAuthB (s : SysState) (a : Option String) : Bool :=
  s.tasks.all (fun p => match p with
    | TaskPhase.sent b => b == a
    | _ => true)

/-! ## Invariant phases of the single-flight argument -/

/-- Phase before any refresh was triggered: storage untouched, no refresh
in flight, no subscriber, no exchange, no redirect, every task still
ready. -/
def PhaseIdle (st0 : Storage) (s : SysState) : Prop :=
  s.storage = st0 ∧ s.refreshing = none ∧ s.refreshSubscribers = []
  ∧ s.exchanges = 0 ∧ s.redirects = []
  ∧ ∀ (j : Nat) (p : TaskPhase), s.tasks[j]? = some p → p = TaskPhase.ready

/-- Phase while the unique exchange is in flight: one task leads it, every
other task is ready or queued as a waiter, and the subscriber array holds
exactly the waiting tasks. -/
def PhaseBusy (st0 : Storage) (s : SysState) : Prop :=
  s.storage = st0 ∧ s.exchanges = 1 ∧ s.redirects = []
  ∧ ∃ i, s.refreshing = some (i, true)
    ∧ s.tasks[i]? = some TaskPhase.leading
    ∧ (∀ (j : Nat) (p : TaskPhase), ¬ j = i → s.tasks[j]? = some p →
        p = TaskPhase.ready ∨ p = TaskPhase.waiting)
    ∧ (∀ j : Nat, j ∈ s.refreshSubscribers ↔
        s.tasks[j]? = some TaskPhase.waiting)

/-- Phase after the one successful exchange: storage replaced through
storeAuthData, queue empty, refresh idle, and every task either still ready
or sent with the fresh bearer header. -/
def PhaseDone (env : Env) (st0 : Storage) (r : AuthResponseDto)
    (s : SysState) : Prop :=
  s.storage = storeAuthData env.decode r st0 ∧ s.refreshing = none
  ∧ s.refreshSubscribers = [] ∧ s.exchanges = 1 ∧ s.redirects = []
  ∧ ∀ (j : Nat) (p : TaskPhase), s.tasks[j]? = some p →
      p = TaskPhase.ready ∨ p = TaskPhase.sent (some (bearer r.accessToken))

/-- The single-flight invariant: the system is always in one of the three
phases. -/
def SfInv (env : Env) (st0 : Storage) (r : AuthResponseDto)
    (s : SysState) : Prop :=
  PhaseIdle st0 s ∨ PhaseBusy st0 s ∨ PhaseDone env st0 r s

/-! ## Concrete inputs used by counterexamples and witnesses -/

/-- A hung request as axios surfaces it: code ECONNABORTED, a timeout
message, and no response object at all. -/
def timeoutNoResponse : RawError :=
  ⟨none, some "ECONNABORTED", some "timeout of 10000ms exceeded", true⟩

/-- A timeout signal that does come with a response, whose status 418
matches none of the status categories. -/
def teapotTimeout : RawError :=
  ⟨some ⟨418, none⟩, some "ECONNABORTED", none, true⟩

/-- A 422 response that also carries a server-authored message. -/
def status422WithMessage : RawError :=
  ⟨some ⟨422, some ⟨some "Phone number already registered", none, false⟩⟩,
   none, none, true⟩

/-- A fully populated stored credential set. -/
def prevCreds : Storage :=
  ⟨some "oldAccess", some "oldRefresh", some 99, some "oldUser"⟩

/-- A refresh response that supplies neither a refresh token nor a user. -/
def partialUpdate : AuthResponseDto :=
  ⟨"newAccess", none, none⟩

/-- Stored credentials whose access token is close to expiry. -/
def sfStorage : Storage :=
  ⟨some "staleTok", some "refTok", some 100, none⟩

/-- Environment in which the refresh endpoint answers with a fresh token
whose decoded expiry lies far beyond the proactive window. -/
def sfEnv : Env :=
  ⟨0, fun _ => some 10000000, some ⟨"newTok", some "newRef", none⟩,
   "/pharma/items"⟩

/-- Environment in which the refresh exchange fails. -/
def failEnv : Env :=
  ⟨0, fun _ => some 10000000, none, "/pharma/items"⟩

end Pharma

namespace Pharma

/-! # Helper lemmas -/

/-- Field characterization of storeAuthData, shared by several results. -/
lemma storeAuthData_spec (decode : String → Option Int)
    (data : AuthResponseDto) (s : Storage) :
    (storeAuthData decode data s).auth_token = some data.accessToken
    ∧ (storeAuthData decode data s).refresh_token =
        (if truthyStr data.refreshToken then data.refreshToken
         else s.refresh_token)
    ∧ (storeAuthData decode data s).token_expiry =
        (match decode data.accessToken with
         | some e => if e == 0 then s.token_expiry else some e
         | none => s.token_expiry)
    ∧ (storeAuthData decode data s).user_data =
        (if truthyStr data.user then data.user else s.user_data) := by
  unfold storeAuthData
  repeat' split <;> try (first | rfl | simp_all)

/-- Once the _retry flag is set, the handler never re-issues, so at most
one further attempt is consumed. -/
lemma issuesFrom_retried_le_one (outcomes : List AttemptOutcome) (ok : Bool) :
    issuesFrom outcomes true ok ≤ 1 := by
  cases outcomes with
  | nil => simp [issuesFrom]
  | cons o rest =>
    cases o with
    | success => simp [issuesFrom]
    | failure st => simp [issuesFrom, onResponseError, shouldRetry401]

/-- A truthy optional string is some non-empty string. -/
lemma truthy_some {o : Option String} (h : truthyStr o = true) :
    ∃ t, o = some t ∧ (t == "") = false := by
  cases o with
  | none => simp [truthyStr] at h
  | some t => exact ⟨t, rfl, by simpa [truthyStr] using h⟩

/-- Pointwise effect of the onTokenRefreshed broadcast: a position is
rewritten to the sent phase exactly when it was waiting and is listed among
the subscribers. -/
lemma notifyAll_getElem (ts : List TaskPhase) (subs : List Nat) (a : String)
    (k : Nat) :
    (notifyAll ts subs a)[k]? =
      if ts[k]? == some TaskPhase.waiting && subs.contains k then
        some (TaskPhase.sent (some a))
      else ts[k]? := by
  induction subs generalizing ts with
  | nil => simp [notifyAll]
  | cons j rest ih =>
    have hstep : notifyAll ts (j :: rest) a =
        notifyAll (if ts[j]? == some TaskPhase.waiting then
          ts.set j (TaskPhase.sent (some a)) else ts) rest a := rfl
    rw [hstep]
    cases hj : (ts[j]? == some TaskPhase.waiting) with
    | true =>
      have hjlt : j < ts.length := by
        have := List.getElem?_eq_some.mp (by simpa using (beq_iff_eq.mp hj))
        exact this.1
      by_cases hk : k = j
      · subst hk
        rw [if_pos rfl] at *
        rw [ih]
        have h1 : (ts.set k (TaskPhase.sent (some a)))[k]? =
            some (TaskPhase.sent (some a)) :=
          List.getElem?_set_eq_of_lt _ hjlt
        simp [h1, hj]
      · rw [if_pos rfl, ih]
        have h1 : (ts.set j (TaskPhase.sent (some a)))[k]? = ts[k]? :=
          List.getElem?_set_ne (fun h => hk h.symm)
        have hc : (j :: rest).contains k = (k == j || rest.contains k) := rfl
        simp [h1, hc, beq_iff_eq, hk]
    | false =>
      rw [if_neg (by simp [hj])]
      rw [ih]
      have hc : (j :: rest).contains k = (k == j || rest.contains k) := rfl
      by_cases hk : k = j
      · subst hk
        simp [hj]
      · simp [hc, beq_iff_eq, hk]

/-- The broadcast does not change the number of tasks. -/
lemma notifyAll_length (ts : List TaskPhase) (subs : List Nat) (a : String) :
    (notifyAll ts subs a).length = ts.length := by
  induction subs generalizing ts with
  | nil => simp [notifyAll]
  | cons j rest ih =>
    have hstep : notifyAll ts (j :: rest) a =
        notifyAll (if ts[j]? == some TaskPhase.waiting then
          ts.set j (TaskPhase.sent (some a)) else ts) rest a := rfl
    rw [hstep, ih]
    split <;> simp

/-- Reduction of startTask on a task that is not ready. -/
lemma startTask_not_ready (env : Env) (s : SysState) (i : Nat)
    (h : ∀ p : TaskPhase, s.tasks[i]? = some p → ¬ p = TaskPhase.ready) :
    startTask env s i = s := by
  unfold startTask
  cases hti : s.tasks[i]? with
  | none => rfl
  | some p =>
    cases p with
    | ready => exact absurd rfl (h _ hti)
    | leading => rfl
    | waiting => rfl
    | sent a => rfl

/-- Reduction of startTask in the leader branch: truthy token, expiring
soon, no refresh in flight. -/
lemma startTask_leader (env : Env) (s : SysState) (i : Nat) (t0 : String)
    (hti : s.tasks[i]? = some TaskPhase.ready)
    (ht0 : s.storage.auth_token = some t0)
    (ht0ne : (t0 == "") = false)
    (hexp : isTokenExpiringSoon s.storage.token_expiry env.now = true)
    (hflag : s.refreshing = none) :
    startTask env s i =
      { s with refreshing := some (i, truthyStr s.storage.refresh_token),
               tasks := s.tasks.set i TaskPhase.leading,
               exchanges := s.exchanges
                 + (if truthyStr s.storage.refresh_token then 1 else 0) } := by
  unfold startTask
  rw [hti, ht0]
  simp [ht0ne, hexp, isRefreshingFlag, hflag]

/-- Reduction of startTask in the subscribe branch: truthy token and a
refresh already in flight. -/
lemma startTask_subscribe (env : Env) (s : SysState) (i : Nat) (t0 : String)
    (z : Nat × Bool)
    (hti : s.tasks[i]? = some TaskPhase.ready)
    (ht0 : s.storage.auth_token = some t0)
    (ht0ne : (t0 == "") = false)
    (hflag : s.refreshing = some z) :
    startTask env s i =
      { s with refreshSubscribers := s.refreshSubscribers ++ [i],
               tasks := s.tasks.set i TaskPhase.waiting } := by
  unfold startTask
  rw [hti, ht0]
  simp [ht0ne, isRefreshingFlag, hflag]

/-- Reduction of startTask in the attach branch: truthy token, not
expiring, no refresh in flight. -/
lemma startTask_attach (env : Env) (s : SysState) (i : Nat) (t0 : String)
    (hti : s.tasks[i]? = some TaskPhase.ready)
    (ht0 : s.storage.auth_token = some t0)
    (ht0ne : (t0 == "") = false)
    (hexp : isTokenExpiringSoon s.storage.token_expiry env.now = false)
    (hflag : s.refreshing = none) :
    startTask env s i =
      { s with tasks := s.tasks.set i (TaskPhase.sent (some (bearer t0))) } := by
  unfold startTask
  rw [hti, ht0]
  simp [ht0ne, hexp, isRefreshingFlag, hflag]

/-- Reduction of completeRefresh when no refresh is in flight. -/
lemma completeRefresh_idle (env : Env) (s : SysState)
    (h : s.refreshing = none) : completeRefresh env s = s := by
  unfold completeRefresh
  rw [h]

/-- Reduction of completeRefresh when the dispatched exchange succeeds with
a truthy access token. -/
lemma completeRefresh_success (env : Env) (s : SysState) (i : Nat)
    (r : AuthResponseDto)
    (h : s.refreshing = some (i, true))
    (hr : env.resp = some r)
    (hacc : (r.accessToken == "") = false) :
    completeRefresh env s =
      { storage := storeAuthData env.decode r s.storage,
        refreshing := none,
        refreshSubscribers := [],
        tasks := notifyAll
                   (s.tasks.set i (TaskPhase.sent (some (bearer r.accessToken))))
                   s.refreshSubscribers (bearer r.accessToken),
        exchanges := s.exchanges,
        redirects := s.redirects } := by
  unfold completeRefresh
  rw [h]
  simp [hr, truthyStr, hacc]

/-- The initial state is in the idle phase. -/
lemma sf_init (st0 : Storage) (n : Nat) : PhaseIdle st0 (initState st0 n) := by
  refine ⟨rfl, rfl, rfl, rfl, rfl, ?_⟩
  intro j p hjp
  have hjp2 : (List.replicate n TaskPhase.ready)[j]? = some p := hjp
  rw [List.getElem?_replicate] at hjp2
  by_cases hj : j < n
  · rw [if_pos hj] at hjp2; cases hjp2; rfl
  · rw [if_neg hj] at hjp2; cases hjp2

/-- Every scheduler step preserves the single-flight invariant, under the
environment conditions of the claim. -/
lemma sf_step (env : Env) (st0 : Storage) (r : AuthResponseDto) (e2 : Int)
    (htok : truthyStr st0.auth_token = true)
    (hexp : isTokenExpiringSoon st0.token_expiry env.now = true)
    (href : truthyStr st0.refresh_token = true)
    (hresp : env.resp = some r)
    (hacc : (r.accessToken == "") = false)
    (hdec : env.decode r.accessToken = some e2)
    (he2 : (e2 == 0) = false)
    (hfresh : env.now < e2 - REFRESH_THRESHOLD)
    (s : SysState) (a : Action)
    (h : SfInv env st0 r s) : SfInv env st0 r (step env s a) := by
  obtain ⟨t0, ht0, ht0ne⟩ := truthy_some htok
  cases a with
  | start i =>
    show SfInv env st0 r (startTask env s i)
    rcases h with hIdle | hBusy | hDone
    · obtain ⟨hsto, hrf, hsub, hex, hred, htasks⟩ := hIdle
      cases hti : s.tasks[i]? with
      | none =>
        rw [startTask_not_ready env s i (by intro p hp; rw [hti] at hp; cases hp)]
        exact Or.inl ⟨hsto, hrf, hsub, hex, hred, htasks⟩
      | some p =>
        have hp := htasks i p hti
        subst hp
        have hlt : i < s.tasks.length := (List.getElem?_eq_some.mp hti).1
        have hrt : truthyStr s.storage.refresh_token = true := by
          rw [hsto]; exact href
        rw [startTask_leader env s i t0 hti (by rw [hsto]; exact ht0) ht0ne
          (by rw [hsto]; exact hexp) hrf, hrt]
        right; left
        refine ⟨hsto, by simp [hex], hred, i, by simp, ?_, ?_, ?_⟩
        · exact List.getElem?_set_eq_of_lt _ hlt
        · intro j p hji hjp
          have : s.tasks[j]? = some p := by
            rw [← List.getElem?_set_ne (a := TaskPhase.leading)
              (fun hh => hji hh.symm)]
            exact hjp
          exact Or.inl (htasks j p this)
        · intro j
          constructor
          · intro hj; rw [hsub] at hj; cases hj
          · intro hj
            by_cases hji : j = i
            · subst hji
              rw [List.getElem?_set_eq_of_lt _ hlt] at hj
              cases hj
            · rw [List.getElem?_set_ne (fun hh => hji hh.symm)] at hj
              have := htasks j _ hj
              cases this
    · obtain ⟨hsto, hex, hred, i0, hrf, hlead, hothers, hiff⟩ := hBusy
      cases hti : s.tasks[i]? with
      | none =>
        rw [startTask_not_ready env s i (by intro q hq; rw [hti] at hq; cases hq)]
        exact Or.inr (Or.inl ⟨hsto, hex, hred, i0, hrf, hlead, hothers, hiff⟩)
      | some p =>
        cases p with
        | ready =>
          have hlt : i < s.tasks.length := (List.getElem?_eq_some.mp hti).1
          have hii0 : ¬ i = i0 := by
            intro hh; subst hh; rw [hti] at hlead; cases hlead
          rw [startTask_subscribe env s i t0 (i0, true) hti
            (by rw [hsto]; exact ht0) ht0ne hrf]
          right; left
          refine ⟨hsto, hex, hred, i0, hrf, ?_, ?_, ?_⟩
          · rw [List.getElem?_set_ne hii0]
            exact hlead
          · intro j q hji0 hjq
            by_cases hji : j = i
            · subst hji
              rw [List.getElem?_set_eq_of_lt _ hlt] at hjq
              cases hjq
              exact Or.inr rfl
            · rw [List.getElem?_set_ne (fun hh => hji hh.symm)] at hjq
              exact hothers j q hji0 hjq
          · intro j
            rw [List.mem_append, List.mem_singleton]
            by_cases hji : j = i
            · subst hji
              rw [List.getElem?_set_eq_of_lt _ hlt]
              simp
            · rw [List.getElem?_set_ne (fun hh => hji hh.symm)]
              simp [hji, hiff j]
        | leading =>
          rw [startTask_not_ready env s i
            (by intro q hq; rw [hti] at hq; cases hq; simp)]
          exact Or.inr (Or.inl ⟨hsto, hex, hred, i0, hrf, hlead, hothers, hiff⟩)
        | waiting =>
          rw [startTask_not_ready env s i
            (by intro q hq; rw [hti] at hq; cases hq; simp)]
          exact Or.inr (Or.inl ⟨hsto, hex, hred, i0, hrf, hlead, hothers, hiff⟩)
        | sent b =>
          rw [startTask_not_ready env s i
            (by intro q hq; rw [hti] at hq; cases hq; simp)]
          exact Or.inr (Or.inl ⟨hsto, hex, hred, i0, hrf, hlead, hothers, hiff⟩)
    · obtain ⟨hsto, hrf, hsub, hex, hred, htasks⟩ := hDone
      cases hti : s.tasks[i]? with
      | none =>
        rw [startTask_not_ready env s i (by intro q hq; rw [hti] at hq; cases hq)]
        exact Or.inr (Or.inr ⟨hsto, hrf, hsub, hex, hred, htasks⟩)
      | some p =>
        rcases htasks i p hti with hp | hp
        · subst hp
          have hlt : i < s.tasks.length := (List.getElem?_eq_some.mp hti).1
          have hsd := storeAuthData_spec env.decode r st0
          have hat : s.storage.auth_token = some r.accessToken := by
            rw [hsto]; exact hsd.1
          have hte : s.storage.token_expiry = some e2 := by
            rw [hsto, hsd.2.2.1, hdec]; simp [he2]
          have hexp2 : isTokenExpiringSoon s.storage.token_expiry env.now
              = false := by
            rw [hte]
            simp only [isTokenExpiringSoon, he2]
            simp
            omega
          rw [startTask_attach env s i r.accessToken hti hat hacc hexp2 hrf]
          right; right
          refine ⟨hsto, hrf, hsub, hex, hred, ?_⟩
          intro j q hjq
          by_cases hji : j = i
          · subst hji
            rw [List.getElem?_set_eq_of_lt _ hlt] at hjq
            cases hjq
            exact Or.inr rfl
          · rw [List.getElem?_set_ne (fun hh => hji hh.symm)] at hjq
            exact htasks j q hjq
        · subst hp
          rw [startTask_not_ready env s i
            (by intro q hq; rw [hti] at hq; cases hq; simp)]
          exact Or.inr (Or.inr ⟨hsto, hrf, hsub, hex, hred, htasks⟩)
  | complete =>
    show SfInv env st0 r (completeRefresh env s)
    rcases h with hIdle | hBusy | hDone
    · rw [completeRefresh_idle env s hIdle.2.1]
      exact Or.inl hIdle
    · obtain ⟨hsto, hex, hred, i0, hrf, hlead, hothers, hiff⟩ := hBusy
      have hlt : i0 < s.tasks.length := (List.getElem?_eq_some.mp hlead).1
      rw [completeRefresh_success env s i0 r hrf hresp hacc]
      right; right
      refine ⟨by rw [hsto], rfl, rfl, hex, hred, ?_⟩
      intro j p hjp
      rw [notifyAll_getElem] at hjp
      by_cases hcond :
          ((s.tasks.set i0 (TaskPhase.sent (some (bearer r.accessToken))))[j]?
            == some TaskPhase.waiting
            && s.refreshSubscribers.contains j) = true
      · rw [if_pos hcond] at hjp
        cases hjp
        exact Or.inr rfl
      · rw [if_neg hcond] at hjp
        by_cases hji : j = i0
        · subst hji
          rw [List.getElem?_set_eq_of_lt _ hlt] at hjp
          cases hjp
          exact Or.inr rfl
        · rw [List.getElem?_set_ne (fun hh => hji hh.symm)] at hjp
          rcases hothers j p hji hjp with hq | hq
          · exact Or.inl hq
          · exfalso
            apply hcond
            subst hq
            have hmem : j ∈ s.refreshSubscribers := (hiff j).mpr hjp
            rw [List.getElem?_set_ne (fun hh => hji hh.symm), hjp]
            simp [List.elem_iff]
            exact hmem
    · rw [completeRefresh_idle env s hDone.2.1]
      exact Or.inr (Or.inr hDone)

/-- The invariant holds after any whole run. -/
lemma sf_run (env : Env) (st0 : Storage) (r : AuthResponseDto) (e2 : Int)
    (htok : truthyStr st0.auth_token = true)
    (hexp : isTokenExpiringSoon st0.token_expiry env.now = true)
    (href : truthyStr st0.refresh_token = true)
    (hresp : env.resp = some r)
    (hacc : (r.accessToken == "") = false)
    (hdec : env.decode r.accessToken = some e2)
    (he2 : (e2 == 0) = false)
    (hfresh : env.now < e2 - REFRESH_THRESHOLD)
    (s : SysState) (acts : List Action)
    (h : SfInv env st0 r s) : SfInv env st0 r (run env s acts) := by
  induction acts generalizing s with
  | nil => exact h
  | cons a rest ih =>
    have hstep : run env s (a :: rest) = run env (step env s a) rest := rfl
    rw [hstep]
    exact ih _ (sf_step env st0 r e2 htok hexp href hresp hacc hdec he2
      hfresh s a h)

/-- A scheduler step does not change the number of tasks. -/
lemma step_tasks_length (env : Env) (s : SysState) (a : Action) :
    (step env s a).tasks.length = s.tasks.length := by
  cases a with
  | start i =>
    show (startTask env s i).tasks.length = s.tasks.length
    unfold startTask
    repeat' split <;> try simp
  | complete =>
    show (completeRefresh env s).tasks.length = s.tasks.length
    unfold completeRefresh
    repeat' split <;> try simp [failPath, notifyAll_length]

/-- A run does not change the number of tasks. -/
lemma run_tasks_length (env : Env) (s : SysState) (acts : List Action) :
    (run env s acts).tasks.length = s.tasks.length := by
  induction acts generalizing s with
  | nil => rfl
  | cons a rest ih =>
    have hstep : run env s (a :: rest) = run env (step env s a) rest := rfl
    rw [hstep, ih, step_tasks_length]

/-- In an invariant state where every task completed, the system is in the
final phase: one exchange happened and every request carries the fresh
bearer token. -/
lemma sf_final (env : Env) (st0 : Storage) (r : AuthResponseDto)
    (s : SysState)
    (h : SfInv env st0 r s) (hlen : 0 < s.tasks.length)
    (hdone : allSentB s = true) :
    s.exchanges = 1 ∧ allAuthB s (some (bearer r.accessToken)) = true := by
  have hall := List.all_eq_true.mp hdone
  rcases h with hIdle | hBusy | hDone
  · exfalso
    obtain ⟨p, hp⟩ : ∃ p, s.tasks[0]? = some p :=
      ⟨s.tasks[0], List.getElem?_eq_getElem hlen⟩
    have := hIdle.2.2.2.2.2 0 p hp
    subst this
    have := hall _ (List.getElem?_mem hp)
    simp at this
  · exfalso
    obtain ⟨hsto, hex, hred, i0, hrf, hlead, hrest⟩ := hBusy
    have := hall _ (List.getElem?_mem hlead)
    simp at this
  · obtain ⟨hsto, hrf, hsub, hex, hred, htasks⟩ := hDone
    refine ⟨hex, ?_⟩
    rw [allAuthB, List.all_eq_true]
    intro p hp
    obtain ⟨j, hj⟩ := List.getElem?_of_mem hp
    rcases htasks j p hj with hq | hq
    · subst hq
      have := hall _ hp
      simp at this
    · subst hq
      simp

end Pharma

namespace Pharma

/-! # Claim theorems -/

/-- C1: single-flight refresh. For any number n of concurrent send calls
issued while a proactive refresh is warranted (stored access token truthy
and expiring soon, refresh token stored, refresh endpoint answering with a
fresh token), every scheduler interleaving in which all n requests complete
dispatches exactly one exchange against the refresh endpoint, never starts
a second exchange while one is in flight (the exchange count is at most one
after every prefix of the schedule), and hands every one of the n requests
the bearer header built from the token produced by that one exchange. -/
theorem single_flight_refresh (env : Env) (st0 : Storage)
    (r : AuthResponseDto) (e2 : Int) (n : Nat) (acts : List Action)
    (htok : truthyStr st0.auth_token = true)
    (hexp : isTokenExpiringSoon st0.token_expiry env.now = true)
    (href : truthyStr st0.refresh_token = true)
    (hresp : env.resp = some r)
    (hacc : (r.accessToken == "") = false)
    (hdec : env.decode r.accessToken = some e2)
    (he2 : (e2 == 0) = false)
    (hfresh : env.now < e2 - REFRESH_THRESHOLD)
    (hn : 0 < n)
    (hdone : allSentB (run env (initState st0 n) acts) = true) :
    (run env (initState st0 n) acts).exchanges = 1
    ∧ allAuthB (run env (initState st0 n) acts)
        (some (bearer r.accessToken)) = true
    ∧ ∀ k : Nat, (run env (initState st0 n) (acts.take k)).exchanges ≤ 1 := by
  have hinv := sf_run env st0 r e2 htok hexp href hresp hacc hdec he2 hfresh
    (initState st0 n) acts (Or.inl (sf_init st0 n))
  have hlen : 0 < (run env (initState st0 n) acts).tasks.length := by
    rw [run_tasks_length]
    simpa [initState] using hn
  obtain ⟨h1, h2⟩ := sf_final env st0 r _ hinv hlen hdone
  refine ⟨h1, h2, ?_⟩
  intro k
  have hk := sf_run env st0 r e2 htok hexp href hresp hacc hdec he2 hfresh
    (initState st0 n) (acts.take k) (Or.inl (sf_init st0 n))
  rcases hk with h | h | h
  · rw [h.2.2.2.1]
    omega
  · rw [h.2.1]
  · rw [h.2.2.2.1]

/-- C1 witness: a concrete two-request schedule in which the second caller
joins the in-flight refresh; one exchange, both requests carry the new
token. -/
theorem single_flight_refresh_witness :
    (run sfEnv (initState sfStorage 2)
      [Action.start 0, Action.start 1, Action.complete]).exchanges = 1
    ∧ allAuthB (run sfEnv (initState sfStorage 2)
        [Action.start 0, Action.start 1, Action.complete])
        (some (bearer "newTok")) = true
    ∧ (run sfEnv (initState sfStorage 2)
        ([Action.start 0, Action.start 1, Action.complete].take 2)).exchanges
        ≤ 1 :=
  ⟨(single_flight_refresh sfEnv sfStorage ⟨"newTok", some "newRef", none⟩
      10000000 2 [Action.start 0, Action.start 1, Action.complete]
      (by decide) (by decide) (by decide) rfl (by decide) rfl (by decide)
      (by decide) (by decide) (by decide)).1,
   (single_flight_refresh sfEnv sfStorage ⟨"newTok", some "newRef", none⟩
      10000000 2 [Action.start 0, Action.start 1, Action.complete]
      (by decide) (by decide) (by decide) rfl (by decide) rfl (by decide)
      (by decide) (by decide) (by decide)).2.1,
   (single_flight_refresh sfEnv sfStorage ⟨"newTok", some "newRef", none⟩
      10000000 2 [Action.start 0, Action.start 1, Action.complete]
      (by decide) (by decide) (by decide) rfl (by decide) rfl (by decide)
      (by decide) (by decide) (by decide)).2.2 2⟩

/-- C2: what the code actually does on refresh failure, shown on the
concrete two-request scenario of the claim. The coordinator does return to
idle, does clear the credentials, and does emit exactly one session-ended
redirect carrying the current navigation path — but the queued waiter is
never rejected: task 1 stays in the waiting phase forever and the
subscriber queue still holds it, because the broadcast that releases
subscribers runs only on the success path. This contradicts the claim that
every queued waiter is rejected with the failure. -/
theorem refresh_failure_leaves_waiter_pending :
    run failEnv (initState sfStorage 2)
        [Action.start 0, Action.start 1, Action.complete] =
      { storage := clearAuthData,
        refreshing := none,
        refreshSubscribers := [1],
        tasks := [TaskPhase.sent none, TaskPhase.waiting],
        exchanges := 1,
        redirects := ["/pharma/items"] } := by
  decide

/-- C3: at-most-one-retry. A logical request is issued at most twice
whatever the attempt outcomes and refresh results; a request whose _retry
flag is set is never re-issued, even when its status is 401 again; and the
flag either stays what it was or moves from false to true on a 401, so it
is set at most once. -/
theorem at_most_one_retry :
    (∀ outcomes ok, totalIssues outcomes ok ≤ 2)
    ∧ (∀ st ok, (onResponseError true st ok).2 = false)
    ∧ (∀ retried st ok,
        (onResponseError retried st ok).1 = retried
        ∨ (retried = false ∧ st = some 401
            ∧ (onResponseError retried st ok).1 = true)) := by
  refine ⟨?_, ?_, ?_⟩
  · intro outcomes ok
    cases outcomes with
    | nil => simp [totalIssues, issuesFrom]
    | cons o rest =>
      cases o with
      | success => simp [totalIssues, issuesFrom]
      | failure st =>
        have h1 := issuesFrom_retried_le_one rest ok
        simp only [totalIssues, issuesFrom, onResponseError, shouldRetry401,
          Bool.not_false, Bool.and_true]
        split
        · cases ok with
          | false => simp
          | true => simp; omega
        · simp
  · intro st ok
    simp [onResponseError, shouldRetry401]
  · intro retried st ok
    cases retried with
    | true => left; simp [onResponseError, shouldRetry401]
    | false =>
      cases hb : (st == some 401) with
      | false => left; simp [onResponseError, shouldRetry401, hb]
      | true =>
        right
        refine ⟨rfl, by simpa using hb, ?_⟩
        simp [onResponseError, shouldRetry401, hb]

/-- C4: the if-chain of getErrorCategory is exactly first-match evaluation
of the ordered predicate table auth, permission, validation, notfound,
conflict, server, network, timeout, business, with unknown as fallback; and
every error whose response status is 422 classifies as validation, whatever
else (such as a server-authored message) it carries. -/
theorem classification_first_match (e : RawError) :
    getErrorCategory e = firstMatch e
    ∧ (respStatus e = some 422 →
        getErrorCategory e = ErrorCategory.validation) := by
  constructor
  · simp only [getErrorCategory, firstMatch, categoryOrder, catPred,
      List.find?]
    repeat' split <;> try (first | rfl | simp_all)
  · intro h
    simp [getErrorCategory, h]

/-- C4 witness: a 422 response that also carries a server-authored message
classifies as validation, not business. -/
theorem classification_first_match_witness :
    getErrorCategory status422WithMessage = ErrorCategory.validation
    ∧ backendMessage status422WithMessage = true
    ∧ getErrorType status422WithMessage = ErrorType.nonRetryable :=
  ⟨(classification_first_match status422WithMessage).2 rfl, by decide,
   by decide⟩

/-- C5: the error type is a function of the category and the presence of a
server-authored message: network, timeout and server map to retryable;
auth, permission, validation, notfound and conflict map to non-retryable;
anything else is business when a server message is present and system
otherwise. -/
theorem type_from_category (e : RawError) :
    getErrorType e =
      (match getErrorCategory e with
       | .network | .timeout | .server => ErrorType.retryable
       | .auth | .permission | .validation | .notfound | .conflict =>
           ErrorType.nonRetryable
       | _ =>
           if backendMessage e then ErrorType.business
           else ErrorType.system) := by
  unfold getErrorType
  cases h : getErrorCategory e <;> simp [h, List.contains]

/-- C6 counterexample: a transport timeout that received no response — the
shape axios produces for a hung refresh call — carries the timeout signal
and no status at all, yet classifies as network, because the network
predicate (which also matches any error without a response) is evaluated
before the timeout predicate. -/
theorem timeout_without_response_is_network :
    (timeoutNoResponse.code = some "ECONNABORTED"
      ∧ msgIncludes timeoutNoResponse "timeout" = true
      ∧ respStatus timeoutNoResponse = none)
    ∧ getErrorCategory timeoutNoResponse = ErrorCategory.network := by
  refine ⟨⟨rfl, ?_, rfl⟩, ?_⟩ <;> decide

/-- C6 amended: a raw failure with a timeout signal classifies as timeout
only when every earlier predicate of the chain fails — including the
network predicate, which captures every failure with no response object;
hence a refresh call whose transport times out without receiving any
response surfaces as category network, not timeout. -/
theorem timeout_category_needs_response (e : RawError)
    (htime : catPred .timeout e = true)
    (h1 : catPred .auth e = false) (h2 : catPred .permission e = false)
    (h3 : catPred .validation e = false) (h4 : catPred .notfound e = false)
    (h5 : catPred .conflict e = false) (h6 : catPred .server e = false)
    (h7 : catPred .network e = false) :
    getErrorCategory e = ErrorCategory.timeout := by
  simp only [catPred] at *
  simp [getErrorCategory, h1, h2, h3, h4, h5, h6, h7, htime]

/-- C6 amended witness: a timeout signal accompanied by a response with an
unhandled status does classify as timeout. -/
theorem timeout_category_needs_response_witness :
    getErrorCategory teapotTimeout = ErrorCategory.timeout :=
  timeout_category_needs_response teapotTimeout (by decide) (by decide)
    (by decide) (by decide) (by decide) (by decide) (by decide) (by decide)

/-- C7 counterexample: a stored expiry of 0 falls inside the claimed
threshold window (now is past expiry minus threshold) yet
isTokenExpiringSoon returns false, because the falsy guard of the source
treats the number 0 like an absent expiry. -/
theorem expiry_zero_breaks_threshold_rule :
    isTokenExpiringSoon (some 0) 0 = false
    ∧ (0:Int) ≥ 0 - REFRESH_THRESHOLD := by
  refine ⟨rfl, by decide⟩

/-- C7 amended: the threshold is the fixed five-minute window, and for
every stored nonzero expiry the predicate returns true exactly when now is
at or past expiry minus threshold; an absent expiry — and, by the falsy
guard, a stored expiry of 0 — yields false, so a credential without a
decodable expiry is never proactively refreshed. -/
theorem isTokenExpiringSoon_spec (v now : Int) (hv : ¬ v = 0) :
    REFRESH_THRESHOLD = 5 * 60 * 1000
    ∧ (isTokenExpiringSoon (some v) now = true ↔ now ≥ v - REFRESH_THRESHOLD)
    ∧ isTokenExpiringSoon none now = false := by
  refine ⟨rfl, ?_, rfl⟩
  simp [isTokenExpiringSoon, hv]

/-- C7 amended witness at a concrete nonzero expiry. -/
theorem isTokenExpiringSoon_spec_witness :
    (isTokenExpiringSoon (some 1000000) 700000 = true
      ↔ (700000:Int) ≥ 1000000 - REFRESH_THRESHOLD)
    ∧ isTokenExpiringSoon none 700000 = false :=
  ⟨(isTokenExpiringSoon_spec 1000000 700000 (by decide)).2.1,
   (isTokenExpiringSoon_spec 1000000 700000 (by decide)).2.2⟩

/-- C8 counterexample: storing a credential set that supplies no refresh
token and no user, with an access token whose expiry does not decode,
leaves the previous refresh token, expiry and user in place — three fields
of the previous credential set survive the claimed wholesale
replacement, and the surviving expiry was not derived from the newly
stored access token. -/
theorem store_keeps_stale_fields :
    (storeAuthData (fun _ => none) partialUpdate prevCreds).auth_token
        = some "newAccess"
    ∧ (storeAuthData (fun _ => none) partialUpdate prevCreds).refresh_token
        = some "oldRefresh"
    ∧ (storeAuthData (fun _ => none) partialUpdate prevCreds).token_expiry
        = some 99
    ∧ (storeAuthData (fun _ => none) partialUpdate prevCreds).user_data
        = some "oldUser" := by
  decide

/-- C8 amended: store overwrites the access token unconditionally; it
overwrites the refresh token and the user only when the new credential set
supplies truthy values for them, and overwrites the expiry only when a
nonzero expiry decodes from the new access token; every field not
overwritten keeps its previous value, so fields of the previous credential
set can survive the replacement. -/
theorem storeAuthData_fields (decode : String → Option Int)
    (data : AuthResponseDto) (s : Storage) :
    (storeAuthData decode data s).auth_token = some data.accessToken
    ∧ (storeAuthData decode data s).refresh_token =
        (if truthyStr data.refreshToken then data.refreshToken
         else s.refresh_token)
    ∧ (storeAuthData decode data s).token_expiry =
        (match decode data.accessToken with
         | some e => if e == 0 then s.token_expiry else some e
         | none => s.token_expiry)
    ∧ (storeAuthData decode data s).user_data =
        (if truthyStr data.user then data.user else s.user_data) :=
  storeAuthData_spec decode data s

/-- C9: parseApiError always yields an AppError (its result type), returns
an input that already is an AppError unchanged, and is therefore
idempotent. -/
theorem parseApiError_idempotent :
    (∀ a : AppError, parseApiError (.app a) = a)
    ∧ (∀ x : ParseInput, parseApiError (.app (parseApiError x))
        = parseApiError x) :=
  ⟨fun _ => rfl, fun _ => rfl⟩

/-- C10: when no expiry is stored alongside a truthy access token,
isTokenExpired returns false and isAuthenticated returns true — a token
whose expiry could not be decoded counts as never expired. -/
theorem no_expiry_means_valid (t : String) (now : Int) (h : ¬ t = "") :
    isTokenExpired none now = false
    ∧ isAuthenticated (some t) none now = true := by
  refine ⟨rfl, ?_⟩
  simp [isAuthenticated, isTokenExpired, h]

/-- C10 witness at a concrete token and clock. -/
theorem no_expiry_means_valid_witness :
    isTokenExpired none 12345 = false
    ∧ isAuthenticated (some "jwt-token") none 12345 = true :=
  no_expiry_means_valid "jwt-token" 12345 (by decide)

end Pharma
